import Mathlib

/-!
Verification development for the NLSR dynamic link-cost subsystem
(LinkCostManager, multi-dimensional cost preview, ML adaptive calculator).

The C++ sources are shallowly embedded: neighbor names are natural numbers,
`double` arithmetic is modelled over the reals, steady-clock instants and
durations are naturals counting milliseconds, and the `std::map` containers
are association lists with unique keys.  Fallible calculator callbacks are
modelled as `Option`-returning functions (`none` = a thrown exception).
-/

namespace NlsrLCM

/-- Embeds `Adjacent::Status`: the two-state neighbor status. -/
inductive Status where
  | active
  | inactive
deriving DecidableEq

/-- Per-neighbor `OutgoingLinkState` kept by `LinkCostManager` in
`m_outgoingLinks`.  RTT samples are stored in milliseconds, oldest first. -/
structure OutgoingLinkState where
  status : Status
  originalCost : ℝ
  currentCost : ℝ
  rttHistory : List ℕ
  timeoutCount : ℕ
  lastSuccess : ℕ
  lastLsaTriggerTime : ℕ

/-- One adjacency-list entry as seen through `findAdjacent`: the mutable
`link cost` slot plus the immutable configured original cost. -/
structure AdjSlot where
  linkCost : ℝ
  originalLinkCost : ℝ

/-- The `LinkCostManager` state touched by the handlers under study.
`rebuildRequests` counts calls to `Lsdb::scheduleAdjLsaBuild`, and
`routingCalcRequests` counts `RoutingTable::scheduleRoutingTableCalculation`. -/
structure LCMState where
  isActive : Bool
  outgoingLinks : List (ℕ × OutgoingLinkState)
  pendingMeasurements : List (ℕ × ℕ × ℕ)
  adjacency : List (ℕ × AdjSlot)
  scheduledEvents : List ℕ
  rebuildRequests : ℕ
  routingCalcRequests : ℕ

/-- Embeds `std::map::find` on an association list. -/
def alookup {α : Type} : ℕ → List (ℕ × α) → Option α
  | _, [] => none
  | k, (k', v) :: rest => if k = k' then some v else alookup k rest

/-- Overwrite the value at a key that is already present (`it->second = v`);
a no-op when the key is absent. -/
def aset {α : Type} : ℕ → α → List (ℕ × α) → List (ℕ × α)
  | _, _, [] => []
  | k, v, (k', v') :: rest => if k = k' then (k', v) :: rest else (k', v') :: aset k v rest

/-- Modify the value at a key in place; a no-op when the key is absent. -/
def aupdate {α : Type} : ℕ → (α → α) → List (ℕ × α) → List (ℕ × α)
  | _, _, [] => []
  | k, f, (k', v) :: rest => if k = k' then (k', f v) :: rest else (k', v) :: aupdate k f rest

/-- Embeds `std::map::erase` of one key. -/
def aerase {α : Type} : ℕ → List (ℕ × α) → List (ℕ × α)
  | _, [] => []
  | k, (k', v) :: rest => if k = k' then rest else (k', v) :: aerase k rest

theorem alookup_aupdate_self {α : Type} (k : ℕ) (f : α → α) :
    ∀ l : List (ℕ × α), alookup k (aupdate k f l) = (alookup k l).map f := by
  intro l
  induction l with
  | nil => simp [alookup, aupdate]
  | cons hd tl ih =>
    obtain ⟨k', v⟩ := hd
    by_cases h : k = k'
    · simp [alookup, aupdate, h]
    · simp [alookup, aupdate, h, ih]

theorem alookup_aupdate_ne {α : Type} {k m : ℕ} (f : α → α) (hne : m ≠ k) :
    ∀ l : List (ℕ × α), alookup m (aupdate k f l) = alookup m l := by
  intro l
  induction l with
  | nil => simp [aupdate]
  | cons hd tl ih =>
    obtain ⟨k', v⟩ := hd
    by_cases h : k = k'
    · subst h
      simp [alookup, aupdate, hne, ih]
    · by_cases h2 : m = k'
      · simp [alookup, aupdate, h, h2]
      · simp [alookup, aupdate, h, h2, ih]

theorem alookup_aset_self {α : Type} (k : ℕ) (v : α) :
    ∀ l : List (ℕ × α), alookup k l ≠ none → alookup k (aset k v l) = some v := by
  intro l
  induction l with
  | nil => simp [alookup]
  | cons hd tl ih =>
    obtain ⟨k', v'⟩ := hd
    intro hne
    by_cases h : k = k'
    · simp [alookup, aset, h]
    · simp only [alookup, if_neg h] at hne
      simp [alookup, aset, h, ih hne]

theorem alookup_aset_ne {α : Type} {k m : ℕ} (v : α) (hne : m ≠ k) :
    ∀ l : List (ℕ × α), alookup m (aset k v l) = alookup m l := by
  intro l
  induction l with
  | nil => simp [aset]
  | cons hd tl ih =>
    obtain ⟨k', v'⟩ := hd
    by_cases h : k = k'
    · subst h
      simp [alookup, aset, hne, ih]
    · by_cases h2 : m = k'
      · simp [alookup, aset, h, h2]
      · simp [alookup, aset, h, h2, ih]

theorem alookup_eq_none_of_not_mem {α : Type} (k : ℕ) :
    ∀ l : List (ℕ × α), k ∉ l.map Prod.fst → alookup k l = none := by
  intro l
  induction l with
  | nil => simp [alookup]
  | cons hd tl ih =>
    obtain ⟨k', v⟩ := hd
    intro hmem
    simp only [List.map_cons, List.mem_cons] at hmem
    push_neg at hmem
    simp [alookup, hmem.1, ih hmem.2]

theorem alookup_aerase_self {α : Type} (k : ℕ) :
    ∀ l : List (ℕ × α), (l.map Prod.fst).Nodup → alookup k (aerase k l) = none := by
  intro l
  induction l with
  | nil => simp [alookup, aerase]
  | cons hd tl ih =>
    obtain ⟨k', v⟩ := hd
    intro hnd
    simp only [List.map_cons, List.nodup_cons] at hnd
    by_cases h : k = k'
    · subst h
      simp only [aerase, if_pos rfl]
      exact alookup_eq_none_of_not_mem _ _ hnd.1
    · simp [aerase, alookup, h, ih hnd.2]

theorem alookup_aerase_ne {α : Type} {k m : ℕ} (hne : m ≠ k) :
    ∀ l : List (ℕ × α), alookup m (aerase k l) = alookup m l := by
  intro l
  induction l with
  | nil => simp [aerase]
  | cons hd tl ih =>
    obtain ⟨k', v⟩ := hd
    by_cases h : k = k'
    · subst h
      simp [alookup, aerase, hne]
    · by_cases h2 : m = k'
      · simp [alookup, aerase, h, h2]
      · simp [alookup, aerase, h, h2, ih]

open Classical

/-- Modelled from the spec: `OutgoingLinkState::isStable` lives in the missing
header `link-cost-manager.hpp`; the spec gives the stability predicate
`status == ACTIVE ∧ timeout_count == 0`. -/
def OutgoingLinkState.isStable (ls : OutgoingLinkState) : Prop :=
  ls.status = Status.active ∧ ls.timeoutCount = 0

instance (ls : OutgoingLinkState) : Decidable ls.isStable := by
  unfold OutgoingLinkState.isStable
  infer_instance

/-- Capacity of the bounded RTT history (spec: `capacity ≥ 10, FIFO eviction`). -/
def rttHistoryCapacity : ℕ := 10

/-- Modelled from the spec: `OutgoingLinkState::addRttMeasurement` lives in the
missing header; per the spec's `RttSample` contract the sample is stored at
millisecond resolution with values below 1 ms clamped to 1 ms, and the deque
evicts FIFO at capacity. -/
def addRttMeasurement (history : List ℕ) (rttMs : ℕ) : List ℕ :=
  let h := history ++ [max rttMs 1]
  if rttHistoryCapacity < h.length then h.tail else h

/-- Modelled from the spec: `OutgoingLinkState::getAverageRtt` lives in the
missing header; the spec's cost engine uses `avg = mean(history)`, and duration
arithmetic truncates to whole milliseconds (`duration_cast`). -/
def getAverageRtt (history : List ℕ) : ℕ :=
  history.sum / history.length

/-- The `LinkCostManager::LinkMetrics` snapshot built by `getLinkMetrics`. -/
structure LinkMetrics where
  neighbor : ℕ
  originalCost : ℝ
  currentCost : ℝ
  timeoutCount : ℕ
  status : Status
  rttHistory : List ℕ
  currentRtt : Option ℕ

/-- Embeds `LinkCostManager::getLinkMetrics`. -/
def getLinkMetrics (s : LCMState) (neighbor : ℕ) : Option LinkMetrics :=
  (alookup neighbor s.outgoingLinks).map fun ls =>
    { neighbor := neighbor
      originalCost := ls.originalCost
      currentCost := ls.currentCost
      timeoutCount := ls.timeoutCount
      status := ls.status
      rttHistory := ls.rttHistory
      currentRtt := if ls.rttHistory = [] then none else some (getAverageRtt ls.rttHistory) }

/-- Embeds `LinkCostManager::calculateNewCost`.  `-1` is the "not participating"
sentinel.  `std::round` agrees with Mathlib's `round` on the non-negative
values produced here. -/
noncomputable def calculateNewCost (maxCostMultiplier : ℝ)
    (links : List (ℕ × OutgoingLinkState)) (neighbor : ℕ) : ℝ :=
  match alookup neighbor links with
  | none => -1
  | some ls =>
    if ls.status = Status.inactive then -1
    else if ls.rttHistory = [] then ls.originalCost
    else
      let avgRttMs : ℕ := getAverageRtt ls.rttHistory
      let rttFactor : ℝ := Real.log (1 + (avgRttMs : ℝ) / 100)
      let newCost : ℝ := ls.originalCost * (1 + rttFactor)
      ((round (min newCost (ls.originalCost * maxCostMultiplier)) : ℤ) : ℝ)

/-- Embeds `LinkCostManager::shouldUpdateCost` (engine-level change-ratio gate). -/
noncomputable def shouldUpdateCost (costChangeThreshold : ℝ)
    (links : List (ℕ × OutgoingLinkState)) (neighbor : ℕ) (newCost : ℝ) : Bool :=
  match alookup neighbor links with
  | none => false
  | some ls =>
    decide (costChangeThreshold ≤ |newCost - ls.currentCost| / ls.currentCost)

/-- A registered load-aware/ML cost calculator callback
(`m_loadAwareCostCalculator`); `none` models a thrown exception. -/
def CalcFn : Type := ℕ → ℝ → LinkMetrics → Option ℝ

/-- The `finalCost` computation at the head of
`LinkCostManager::updateNeighborCost`: delegate to the registered calculator
when one exists and metrics are available, falling back to the RTT-based
candidate on a thrown exception. -/
def resolveFinalCost (cal : Option CalcFn) (s : LCMState) (neighbor : ℕ)
    (rttBasedCost : ℝ) : ℝ :=
  match cal with
  | none => rttBasedCost
  | some f =>
    match getLinkMetrics s neighbor with
    | none => rttBasedCost
    | some m =>
      match f neighbor rttBasedCost m with
      | some c => c
      | none => rttBasedCost

/-- Minimum spacing between LSA triggers (`MIN_LSA_INTERVAL`, 10 s) in ms. -/
def minLsaIntervalMs : ℕ := 10000

/-- Embeds `LinkCostManager::updateNeighborCost`.  Returns the new state and whether
an adjacency-LSA rebuild (plus routing-table recalculation) was requested. -/
noncomputable def updateNeighborCost (cal : Option CalcFn) (s : LCMState)
    (neighbor : ℕ) (rttBasedCost : ℝ) (now : ℕ) : LCMState × Bool :=
  match alookup neighbor s.adjacency with
  | none => (s, false)
  | some slot =>
    match alookup neighbor s.outgoingLinks with
    | none => (s, false)
    | some ls =>
      if ls.status = Status.inactive then (s, false)
      else
        let finalCost := resolveFinalCost cal s neighbor rttBasedCost
        let oldCost := slot.linkCost
        if |finalCost - oldCost| / oldCost < 5 / 100 then (s, false)
        else if now - ls.lastLsaTriggerTime < minLsaIntervalMs then
          ({ s with
              adjacency := aupdate neighbor (fun a => { a with linkCost := finalCost }) s.adjacency
              outgoingLinks :=
                aupdate neighbor (fun l => { l with currentCost := finalCost }) s.outgoingLinks },
           false)
        else
          let s' :=
            { s with
                adjacency := aupdate neighbor (fun a => { a with linkCost := finalCost }) s.adjacency
                outgoingLinks :=
                  aupdate neighbor
                    (fun l => { l with currentCost := finalCost, lastLsaTriggerTime := now })
                    s.outgoingLinks }
          if ls.timeoutCount = 0 then
            ({ s' with
                rebuildRequests := s'.rebuildRequests + 1
                routingCalcRequests := s'.routingCalcRequests + 1 },
             true)
          else (s', false)

/-- Embeds `LinkCostManager::handleRttResponse`.  `sendTime` is the closure-captured
send instant, `receiveTime` the steady-clock reading on arrival; the RTT is
their difference in milliseconds.  A reading above 5000 ms is discarded after
the pending entry is erased; a sub-millisecond reading is clamped and
processed.  The ML feedback publication (a pure observer) is not modelled. -/
noncomputable def handleRttResponse (maxCostMultiplier costChangeThreshold : ℝ)
    (cal : Option CalcFn) (s : LCMState) (neighbor seq sendTime receiveTime : ℕ) :
    LCMState :=
  match alookup seq s.pendingMeasurements with
  | none => s
  | some _ =>
    let rttMs := receiveTime - sendTime
    let s1 := { s with pendingMeasurements := aerase seq s.pendingMeasurements }
    if 5000 < rttMs then s1
    else
      match alookup neighbor s1.outgoingLinks with
      | none => s1
      | some ls =>
        if ls.isStable then
          let ls' := { ls with rttHistory := addRttMeasurement ls.rttHistory rttMs }
          let s2 := { s1 with outgoingLinks := aset neighbor ls' s1.outgoingLinks }
          if 3 ≤ ls'.rttHistory.length then
            let newCost := calculateNewCost maxCostMultiplier s2.outgoingLinks neighbor
            if shouldUpdateCost costChangeThreshold s2.outgoingLinks neighbor newCost then
              (updateNeighborCost cal s2 neighbor newCost receiveTime).1
            else s2
          else s2
        else s1

/-- Embeds `LinkCostManager::handleRttTimeout` (also the nack path). -/
def handleRttTimeout (s : LCMState) (_neighbor seq : ℕ) : LCMState :=
  match alookup seq s.pendingMeasurements with
  | none => s
  | some _ => { s with pendingMeasurements := aerase seq s.pendingMeasurements }

/-- Embeds `LinkCostManager::onHelloTimeout`. -/
def onHelloTimeout (retryLimit : ℕ) (s : LCMState) (neighbor timeouts : ℕ) : LCMState :=
  match alookup neighbor s.outgoingLinks with
  | none => s
  | some _ =>
    let s1 :=
      { s with outgoingLinks :=
          aupdate neighbor (fun l => { l with timeoutCount := timeouts }) s.outgoingLinks }
    if retryLimit ≤ timeouts then
      { s1 with
          outgoingLinks :=
            aupdate neighbor
              (fun l => { l with status := Status.inactive, rttHistory := [] })
              s1.outgoingLinks }
    else s1

/-- Embeds `LinkCostManager::onNeighborStatusChanged`. -/
def onNeighborStatusChanged (retryLimit : ℕ) (s : LCMState) (neighbor : ℕ)
    (newStatus : Status) (now : ℕ) : LCMState :=
  match alookup neighbor s.outgoingLinks with
  | none => s
  | some ls =>
    let s1 :=
      { s with outgoingLinks :=
          aupdate neighbor (fun l => { l with status := newStatus }) s.outgoingLinks }
    if newStatus = Status.inactive then
      { s1 with
          outgoingLinks :=
            aupdate neighbor
              (fun l => { l with rttHistory := [], timeoutCount := retryLimit })
              s1.outgoingLinks
          pendingMeasurements :=
            s1.pendingMeasurements.filter (fun e => e.2.1 != neighbor) }
    else if newStatus = Status.active ∧ ls.status ≠ Status.active then
      let s2 :=
        match alookup neighbor s1.adjacency with
        | none => s1
        | some slot =>
          { s1 with
              adjacency :=
                aset neighbor { slot with linkCost := slot.originalLinkCost } s1.adjacency
              outgoingLinks :=
                aupdate neighbor
                  (fun l => { l with currentCost := slot.originalLinkCost })
                  s1.outgoingLinks }
      let s3 :=
        { s2 with
            outgoingLinks :=
              aupdate neighbor
                (fun l => { l with timeoutCount := 0, lastSuccess := now })
                s2.outgoingLinks }
      if s3.isActive then { s3 with scheduledEvents := neighbor :: s3.scheduledEvents } else s3
    else s1

/-- The cost-restoration loop inside `LinkCostManager::stop`: for each stored
link whose neighbor is still adjacent, write the original cost back into the
adjacency slot.  (The source skips the write when the slot already holds the
original cost, which is observationally the same list.) -/
def rollbackAdjacency : List (ℕ × OutgoingLinkState) → List (ℕ × AdjSlot) → List (ℕ × AdjSlot)
  | [], adj => adj
  | (n, ls) :: rest, adj =>
    let adj' :=
      match alookup n adj with
      | none => adj
      | some _ => aupdate n (fun a => { a with linkCost := ls.originalCost }) adj
    rollbackAdjacency rest adj'

/-- Embeds `LinkCostManager::stop`. -/
def stop (s : LCMState) : LCMState :=
  if s.isActive then
    { s with
        isActive := false
        scheduledEvents := []
        pendingMeasurements := []
        adjacency := rollbackAdjacency s.outgoingLinks s.adjacency
        rebuildRequests := s.rebuildRequests + 1 }
  else s

/-- A run of the cost engine: apply `updateNeighborCost` for each event
`(now, neighbor, rttBasedCost)` in order, collecting `(neighbor, time)` for
every emitted adjacency-LSA rebuild request. -/
noncomputable def runUpdates (cal : Option CalcFn) :
    LCMState → List (ℕ × ℕ × ℝ) → List (ℕ × ℕ)
  | _, [] => []
  | s, (now, neighbor, c) :: rest =>
    let r := updateNeighborCost cal s neighbor c now
    if r.2 then (neighbor, now) :: runUpdates cal r.1 rest
    else runUpdates cal r.1 rest

/-- Insert-or-update on an association list (`std::map::operator[]` followed by
a mutation): `d` is the default constructed at first access. -/
def aupsert {α : Type} (k : ℕ) (d : α) (f : α → α) : List (ℕ × α) → List (ℕ × α)
  | [] => [(k, f d)]
  | (k', v) :: rest => if k = k' then (k', f v) :: rest else (k', v) :: aupsert k d f rest

/-- Embeds `MLAdaptiveCalculator::LinearRegressionModel`. -/
structure LinearRegressionModel where
  weights : List ℝ
  bias : ℝ
  updateCount : ℕ

/-- The model constructor for `FEATURE_COUNT = 5`: entries initialised to 0.2,
then the heuristic prior overwrites the five positions. -/
def LinearRegressionModel.init : LinearRegressionModel :=
  { weights := [0.4, 0.3, 0.2, 0.1, 0.15], bias := 0, updateCount := 0 }

/-- Embeds `LinearRegressionModel::predict`: sigmoid of the bias plus the weighted
feature sum (the loop runs to the shorter of the two vectors). -/
noncomputable def LinearRegressionModel.predict (m : LinearRegressionModel)
    (features : List ℝ) : ℝ :=
  1 / (1 + Real.exp (-(m.bias + (List.zipWith (· * ·) m.weights features).sum)))

/-- Embeds `LinearRegressionModel::updateOnline`: one stochastic-gradient step. -/
noncomputable def LinearRegressionModel.updateOnline (m : LinearRegressionModel)
    (features : List ℝ) (target learningRate : ℝ) : LinearRegressionModel :=
  if features.length ≠ m.weights.length then m
  else
    let prediction := m.predict features
    let error := target - prediction
    { weights := List.zipWith (fun w x => w + learningRate * error * x) m.weights features
      bias := m.bias + learningRate * error
      updateCount := m.updateCount + 1 }

/-- The `MLAdaptiveCalculator` state touched by the functions under study.
`rttHistory` is the calculator's own per-neighbor RTT deque (ms readings as
doubles), `timePatterns` maps a neighbor and a 10-minute time-of-day slot to
the slot's EMA performance. -/
structure MLState where
  model : LinearRegressionModel
  learningRate : ℝ
  adaptationThreshold : ℝ
  isModelReady : Bool
  lastModelUpdate : ℕ
  predictionCount : ℕ
  modelUpdateCount : ℕ
  averagePredictionError : ℝ
  rttHistory : List (ℕ × List ℝ)
  timePatterns : List (ℕ × List (ℕ × ℝ))

/-- Embeds `FIXED_WEIGHTS`. -/
def fixedWeights : List ℝ := [0.4, 0.3, 0.2, 0.1]

/-- Embeds `MLAdaptiveCalculator::predictWithFixedWeights`. -/
noncomputable def predictWithFixedWeights (features : List ℝ) : ℝ :=
  let score := (List.zipWith (· * ·) fixedWeights features).sum
  max 0 (min score 1)

/-- Embeds `MLAdaptiveCalculator::calculateRttTrend`. -/
noncomputable def calculateRttTrend (ml : MLState) (neighbor : ℕ) : ℝ :=
  match alookup neighbor ml.rttHistory with
  | none => 0
  | some history =>
    if history.length < 10 then 0
    else
      let recentAvg := (history.drop (history.length - 5)).sum / 5
      let oldAvg := ((history.drop (history.length - 10)).take 5).sum / 5
      if 0 < oldAvg then max (-1) (min (recentAvg / oldAvg - 1) 1) else 0

/-- Embeds `MLAdaptiveCalculator::calculateRttVariationCoefficient`. -/
noncomputable def calculateRttVariationCoefficient (ml : MLState) (neighbor : ℕ) : ℝ :=
  match alookup neighbor ml.rttHistory with
  | none => 0
  | some history =>
    if history.length < 3 then 0
    else
      let mean := history.sum / history.length
      if mean ≤ 0 then 1
      else
        let variance := (history.map (fun r => (r - mean) * (r - mean))).sum / history.length
        min (Real.sqrt variance / mean) 1

/-- Embeds `MLAdaptiveCalculator::calculateSuccessRate`: fraction of samples with
RTT below the 500 ms success threshold. -/
noncomputable def calculateSuccessRate (ml : MLState) (neighbor : ℕ) : ℝ :=
  match alookup neighbor ml.rttHistory with
  | none => 0.5
  | some history =>
    if history = [] then 0.5
    else ((history.filter fun r => decide (r < 500)).length : ℝ) / (history.length : ℝ)

/-- Embeds `MLAdaptiveCalculator::calculateLoadIndicator`: discrete second difference
of the last three samples, normalised by 100 and clamped to `[-1, 1]`. -/
noncomputable def calculateLoadIndicator (ml : MLState) (neighbor : ℕ) : ℝ :=
  match alookup neighbor ml.rttHistory with
  | none => 0
  | some history =>
    if history.length < 5 then 0
    else
      let recent := history.getD (history.length - 1) 0
      let middle := history.getD (history.length - 2) 0
      let old := history.getD (history.length - 3) 0
      let acceleration := (recent - middle) - (middle - old)
      max (-1) (min (acceleration / 100) 1)

/-- Embeds `TemporalPatternLearner::getTimeFeature`; `slot` is the current 10-minute
time-of-day bucket (derived from the wall clock in the source). -/
def getTimeFeature (ml : MLState) (neighbor slot : ℕ) : ℝ :=
  match alookup neighbor ml.timePatterns with
  | none => 0.5
  | some slots =>
    match alookup slot slots with
    | none => 0.5
    | some avg => avg

/-- Embeds `MLAdaptiveCalculator::extractCoreFeatures`. -/
noncomputable def extractCoreFeatures (ml : MLState) (neighbor slot : ℕ) : List ℝ :=
  [calculateRttTrend ml neighbor,
   calculateRttVariationCoefficient ml neighbor,
   calculateSuccessRate ml neighbor,
   calculateLoadIndicator ml neighbor,
   getTimeFeature ml neighbor slot]

/-- Embeds `MAX_RTT_HISTORY` of the ML calculator's own deque. -/
def maxMlRttHistory : ℕ := 20

/-- Embeds `MLAdaptiveCalculator::predictLinkQuality`: the cost callback registered
with the Cost Engine.  Returns the updated calculator state (its RTT deque
grows by the metrics' current RTT) and the fused cost
`originalCost × (1 + ŷ)`. -/
noncomputable def predictLinkQuality (ml : MLState) (neighbor slot : ℕ)
    (metrics : LinkMetrics) : MLState × ℝ :=
  let features := extractCoreFeatures ml neighbor slot
  let mlPrediction :=
    if ml.isModelReady then ml.model.predict features
    else predictWithFixedWeights features
  let finalCost := metrics.originalCost * (1 + mlPrediction)
  let ml' :=
    match metrics.currentRtt with
    | none => ml
    | some rtt =>
      { ml with
          rttHistory :=
            aupsert neighbor []
              (fun h =>
                let h' := h ++ [(rtt : ℝ)]
                if maxMlRttHistory < h'.length then h'.tail else h')
              ml.rttHistory }
  (ml', finalCost)

/-- Embeds `MIN_UPDATE_INTERVAL` (30 s) in ms. -/
def minUpdateIntervalMs : ℕ := 30000

/-- Embeds `MLAdaptiveCalculator::shouldTriggerModelUpdate`. -/
noncomputable def shouldTriggerModelUpdate (ml : MLState) (predictionError : ℝ)
    (now : ℕ) : Bool :=
  decide (ml.adaptationThreshold < predictionError)
    || decide (minUpdateIntervalMs < now - ml.lastModelUpdate)

/-- Embeds `MLAdaptiveCalculator::adaptLearningRate`. -/
noncomputable def adaptLearningRate (ml : MLState) : MLState :=
  if 3 / 10 < ml.averagePredictionError then
    { ml with learningRate := min (5 / 100) (ml.learningRate * (11 / 10)) }
  else if ml.averagePredictionError < 1 / 10 then
    { ml with learningRate := max (1 / 1000) (ml.learningRate * (9 / 10)) }
  else ml

/-- Embeds `FEATURE_COUNT`. -/
def featureCount : ℕ := 5

/-- Embeds `MLAdaptiveCalculator::updateModelWithFeedback`: runs on each feedback
report, with `features` extracted by the caller and `now` the steady-clock
reading. -/
noncomputable def updateModelWithFeedback (ml : MLState) (features : List ℝ)
    (actualPerformance : ℝ) (now : ℕ) : MLState :=
  if features.length ≠ featureCount then ml
  else
    let prediction := ml.model.predict features
    let error := |actualPerformance - prediction|
    let avg :=
      if 0 < ml.predictionCount then
        (ml.averagePredictionError * ((ml.predictionCount - 1 : ℕ) : ℝ) + error)
          / (ml.predictionCount : ℝ)
      else error
    let ml1 := { ml with averagePredictionError := avg }
    if shouldTriggerModelUpdate ml1 error now then
      let ml2 := adaptLearningRate ml1
      { ml2 with
          model := ml2.model.updateOnline features actualPerformance ml2.learningRate
          modelUpdateCount := ml2.modelUpdateCount + 1
          lastModelUpdate := now
          isModelReady := true }
    else ml1

/-- Modelled from the spec: the multi-dimensional preview's RTT factor.  The
C++ body of `calculateMultiDimensionalCostPreview` is absent from the sources;
these factor functions follow the algorithm blocks of its design document
(`part_000`).  `none` means no RTT data (default 20 ms, factor 1.1). -/
noncomputable def rttFactorOf : Option ℝ → ℝ
  | none => 1 + 20 / 200
  | some avgRttMs =>
    if avgRttMs ≤ 0 then 1
    else if 200 ≤ avgRttMs then 2
    else 1 + avgRttMs / 200

/-- Modelled from the spec: the preview's bandwidth factor from the configured
utilization; `none` means no external data (default 30 %, factor 1.3). -/
noncomputable def bwFactorOf : Option ℝ → ℝ
  | none => 1 + 0.3
  | some util =>
    if util ≤ 0 then 1
    else if 1 ≤ util then 2
    else 1 + util

/-- Modelled from the spec: the preview's reliability factor from the
configured packet loss; `none` means no external data (default 1 %, 1.02). -/
noncomputable def lossFactorOf : Option ℝ → ℝ
  | none => 1 + 0.01 * 2
  | some loss =>
    if loss ≤ 0 then 1
    else if 0.5 ≤ loss then 2
    else 1 + loss * 2

/-- Modelled from the spec: the preview's spectrum factor from the configured
signal strength in dBm; `none` means no external data (default −50 dBm, 1.4). -/
noncomputable def spectrumFactorOf : Option ℝ → ℝ
  | none => 1 + (-30 - (-50 : ℝ)) / 50
  | some strength =>
    if -30 ≤ strength then 1
    else if strength ≤ -80 then 2
    else 1 + (-30 - strength) / 50

/-- Modelled from the spec: `calculateMultiDimensionalCostPreview` — the
weighted composite of the four factors applied to the original cost, rounded
to an integer (weights 0.4/0.3/0.2/0.1). -/
noncomputable def calculateMultiDimensionalCostPreview (originalCost : ℝ)
    (avgRttMs util loss spectrum : Option ℝ) : ℝ :=
  let composite :=
    0.4 * rttFactorOf avgRttMs + 0.3 * bwFactorOf util
      + 0.2 * lossFactorOf loss + 0.1 * spectrumFactorOf spectrum
  ((round (originalCost * composite) : ℤ) : ℝ)

theorem aupdate_id {α : Type} (k : ℕ) :
    ∀ l : List (ℕ × α), aupdate k (fun v => v) l = l := by
  intro l
  induction l with
  | nil => rfl
  | cons hd tl ih =>
    obtain ⟨k', v⟩ := hd
    by_cases h : k = k'
    · simp [aupdate, h]
    · simp [aupdate, h, ih]

theorem updateNeighborCost_pending (cal : Option CalcFn) (s : LCMState) (n : ℕ)
    (c : ℝ) (now : ℕ) :
    (updateNeighborCost cal s n c now).1.pendingMeasurements = s.pendingMeasurements := by
  unfold updateNeighborCost
  split
  · rfl
  · split
    · rfl
    · split
      · rfl
      · dsimp only
        split
        · rfl
        · split
          · rfl
          · split <;> rfl

/-- Everything `updateNeighborCost` does to the link store is an in-place
update of the addressed neighbor that can only touch `currentCost` and
`lastLsaTriggerTime`, and the trigger time never moves backwards. -/
theorem updateNeighborCost_links_char (cal : Option CalcFn) (s : LCMState) (n : ℕ)
    (c : ℝ) (now : ℕ) :
    ∃ u : OutgoingLinkState → OutgoingLinkState,
      (updateNeighborCost cal s n c now).1.outgoingLinks = aupdate n u s.outgoingLinks
      ∧ (∀ l, (u l).rttHistory = l.rttHistory ∧ (u l).status = l.status
            ∧ (u l).timeoutCount = l.timeoutCount ∧ (u l).originalCost = l.originalCost
            ∧ (u l).lastSuccess = l.lastSuccess)
      ∧ (∀ l, alookup n s.outgoingLinks = some l →
            l.lastLsaTriggerTime ≤ (u l).lastLsaTriggerTime) := by
  unfold updateNeighborCost
  split
  · exact ⟨fun v => v, by simp [aupdate_id], fun l => ⟨rfl, rfl, rfl, rfl, rfl⟩,
      fun l _ => le_refl _⟩
  · split
    · exact ⟨fun v => v, by simp [aupdate_id], fun l => ⟨rfl, rfl, rfl, rfl, rfl⟩,
        fun l _ => le_refl _⟩
    · rename_i ls hls
      split
      · exact ⟨fun v => v, by simp [aupdate_id], fun l => ⟨rfl, rfl, rfl, rfl, rfl⟩,
          fun l _ => le_refl _⟩
      · dsimp only
        split
        · exact ⟨fun v => v, by simp [aupdate_id], fun l => ⟨rfl, rfl, rfl, rfl, rfl⟩,
            fun l _ => le_refl _⟩
        · split
          · exact ⟨fun l => { l with currentCost := resolveFinalCost cal s n c },
              rfl, fun l => ⟨rfl, rfl, rfl, rfl, rfl⟩, fun l _ => le_refl _⟩
          · rename_i hfar
            have hnow : ∀ l, alookup n s.outgoingLinks = some l →
                l.lastLsaTriggerTime ≤ now := by
              intro l hl
              rw [hls] at hl
              cases hl
              simp only [minLsaIntervalMs] at hfar
              omega
            split
            · exact ⟨fun l => { l with currentCost := resolveFinalCost cal s n c, lastLsaTriggerTime := now }, rfl, fun l => ⟨rfl, rfl, rfl, rfl, rfl⟩, hnow⟩
            · exact ⟨fun l => { l with currentCost := resolveFinalCost cal s n c, lastLsaTriggerTime := now }, rfl, fun l => ⟨rfl, rfl, rfl, rfl, rfl⟩, hnow⟩

/-- A rebuild request from `updateNeighborCost` implies: the neighbor was
found active, at least 10 s passed since its last LSA trigger, its timeout
count was zero, and its trigger time is advanced to `now`. -/
theorem updateNeighborCost_rebuild_spec (cal : Option CalcFn) (s : LCMState) (n : ℕ)
    (c : ℝ) (now : ℕ) (h : (updateNeighborCost cal s n c now).2 = true) :
    ∃ ls, alookup n s.outgoingLinks = some ls
      ∧ ls.status ≠ Status.inactive
      ∧ minLsaIntervalMs ≤ now - ls.lastLsaTriggerTime
      ∧ ls.timeoutCount = 0
      ∧ alookup n (updateNeighborCost cal s n c now).1.outgoingLinks =
          some ({ ls with currentCost := resolveFinalCost cal s n c, lastLsaTriggerTime := now }) := by
  revert h
  unfold updateNeighborCost
  split
  · intro h; exact absurd h (by simp)
  · split
    · intro h; exact absurd h (by simp)
    · rename_i ls hls
      split
      · intro h; exact absurd h (by simp)
      · rename_i hact
        dsimp only
        split
        · intro h; exact absurd h (by simp)
        · split
          · intro h; exact absurd h (by simp)
          · rename_i hfar
            split
            · intro _
              refine ⟨ls, hls, hact, by omega, by assumption, ?_⟩
              rw [alookup_aupdate_self, hls]
              rfl
            · intro h; exact absurd h (by simp)

theorem handleRttResponse_pending_of_some (M θ : ℝ) (cal : Option CalcFn)
    (s : LCMState) (n seq st rt : ℕ) {e : ℕ × ℕ}
    (hsome : alookup seq s.pendingMeasurements = some e) :
    (handleRttResponse M θ cal s n seq st rt).pendingMeasurements =
      aerase seq s.pendingMeasurements := by
  unfold handleRttResponse
  rw [hsome]
  dsimp only
  split
  · rfl
  · split
    · rfl
    · split
      · split
        · split
          · rw [updateNeighborCost_pending]
          · rfl
        · rfl
      · rfl

/-- Concrete state used to witness the stale-probe claim. -/
def staleState : LCMState :=
  { isActive := true
    outgoingLinks := [(1, { status := Status.active, originalCost := 10, currentCost := 10,
                            rttHistory := [], timeoutCount := 0, lastSuccess := 0,
                            lastLsaTriggerTime := 0 })]
    pendingMeasurements := [(4, 1, 50)]
    adjacency := [(1, { linkCost := 10, originalLinkCost := 10 })]
    scheduledEvents := []
    rebuildRequests := 0
    routingCalcRequests := 0 }

/-- C10: a probe response or timeout whose sequence number is no longer in the
pending-measurement map leaves the entire manager state unchanged, and once a
response is handled its sequence number has left the map (with unique keys),
so a probe's result is processed at most once and duplicates have no effect. -/
theorem stale_probe_results_have_no_effect :
    (∀ (M θ : ℝ) (cal : Option CalcFn) (s : LCMState) (n seq st rt : ℕ),
        alookup seq s.pendingMeasurements = none →
        handleRttResponse M θ cal s n seq st rt = s)
    ∧ (∀ (s : LCMState) (n seq : ℕ),
        alookup seq s.pendingMeasurements = none →
        handleRttTimeout s n seq = s)
    ∧ (∀ (M θ : ℝ) (cal : Option CalcFn) (s : LCMState) (n seq st rt : ℕ)
        (e : ℕ × ℕ),
        (s.pendingMeasurements.map Prod.fst).Nodup →
        alookup seq s.pendingMeasurements = some e →
        alookup seq (handleRttResponse M θ cal s n seq st rt).pendingMeasurements = none) := by
  refine ⟨?_, ?_, ?_⟩
  · intro M θ cal s n seq st rt h
    unfold handleRttResponse
    rw [h]
  · intro s n seq h
    unfold handleRttTimeout
    rw [h]
  · intro M θ cal s n seq st rt e hnd hsome
    rw [handleRttResponse_pending_of_some M θ cal s n seq st rt hsome]
    exact alookup_aerase_self _ _ hnd

/-- Witness for C10 at a concrete state: sequence 7 is not pending, so both
handlers are no-ops; sequence 4 is pending and is consumed by its response. -/
theorem stale_probe_results_have_no_effect_witness :
    handleRttResponse 5 (5 / 100) none staleState 1 7 0 5 = staleState
    ∧ handleRttTimeout staleState 1 7 = staleState
    ∧ alookup 4 (handleRttResponse 5 (5 / 100) none staleState 1 4 50 55).pendingMeasurements
        = none := by
  refine ⟨?_, ?_, ?_⟩
  · exact stale_probe_results_have_no_effect.1 5 (5 / 100) none staleState 1 7 0 5 (by
      simp [staleState, alookup])
  · exact stale_probe_results_have_no_effect.2.1 staleState 1 7 (by
      simp [staleState, alookup])
  · exact stale_probe_results_have_no_effect.2.2 5 (5 / 100) none staleState 1 4 50 55
      ((1, 50)) (by simp [staleState]) (by simp [staleState, alookup])

/-- Concrete state for the hello-timeout claim: neighbor 1 is ACTIVE with a
probe (sequence 7) outstanding. -/
def helloTimeoutState : LCMState :=
  { isActive := true
    outgoingLinks := [(1, { status := Status.active, originalCost := 10, currentCost := 26,
                            rttHistory := [400, 400, 400], timeoutCount := 2, lastSuccess := 0,
                            lastLsaTriggerTime := 0 })]
    pendingMeasurements := [(7, 1, 100)]
    adjacency := [(1, { linkCost := 26, originalLinkCost := 10 })]
    scheduledEvents := []
    rebuildRequests := 0
    routingCalcRequests := 0 }

/-- C2 counterexample: delivering the retry-limit-th hello timeout drives
neighbor 1 INACTIVE but leaves its pending measurement (sequence 7) in the
map, so an entry of the pending-measurement map refers to an INACTIVE
neighbor, contrary to the claim. -/
theorem onHelloTimeout_keeps_pending_counterexample :
    (alookup 1 (onHelloTimeout 3 helloTimeoutState 1 3).outgoingLinks).map
        OutgoingLinkState.status = some Status.inactive
    ∧ (onHelloTimeout 3 helloTimeoutState 1 3).pendingMeasurements = [(7, 1, 100)] := by
  constructor
  · simp [onHelloTimeout, helloTimeoutState, alookup, aupdate]
  · simp [onHelloTimeout, helloTimeoutState, alookup, aupdate]

/-- C2 (amended): when the timeout count reaches the retry limit,
`onHelloTimeout` records the count, transitions the neighbor to INACTIVE and
clears its RTT history, but leaves the pending-measurement map untouched;
pending entries of a neighbor are removed only by the INACTIVE branch of
`onNeighborStatusChanged`. -/
theorem onHelloTimeout_inactive_spec :
    (∀ (retryLimit : ℕ) (s : LCMState) (n t : ℕ) (ls : OutgoingLinkState),
        alookup n s.outgoingLinks = some ls → retryLimit ≤ t →
        alookup n (onHelloTimeout retryLimit s n t).outgoingLinks =
            some ({ ls with timeoutCount := t, status := Status.inactive, rttHistory := [] })
          ∧ (onHelloTimeout retryLimit s n t).pendingMeasurements = s.pendingMeasurements)
    ∧ (∀ (retryLimit : ℕ) (s : LCMState) (n now : ℕ) (ls : OutgoingLinkState),
        alookup n s.outgoingLinks = some ls →
        ∀ e ∈ (onNeighborStatusChanged retryLimit s n Status.inactive now).pendingMeasurements,
          e.2.1 ≠ n) := by
  constructor
  · intro retryLimit s n t ls hls hle
    unfold onHelloTimeout
    rw [hls]
    dsimp only
    rw [if_pos hle]
    constructor
    · dsimp only
      rw [alookup_aupdate_self, alookup_aupdate_self, hls]
      rfl
    · rfl
  · intro retryLimit s n now ls hls e he
    unfold onNeighborStatusChanged at he
    rw [hls] at he
    dsimp only at he
    rw [if_pos rfl] at he
    dsimp only at he
    rcases List.mem_filter.mp he with ⟨_, hkeep⟩
    simpa using hkeep

/-- Witness for the amended C2 at the concrete state: the timeout-driven
decline and the status-change cleanup behave as proven. -/
theorem onHelloTimeout_inactive_spec_witness :
    (alookup 1 (onHelloTimeout 3 helloTimeoutState 1 3).outgoingLinks).map
        OutgoingLinkState.rttHistory = some []
    ∧ (onHelloTimeout 3 helloTimeoutState 1 3).pendingMeasurements =
        helloTimeoutState.pendingMeasurements
    ∧ (∀ e ∈ (onNeighborStatusChanged 3 helloTimeoutState 1 Status.inactive 0).pendingMeasurements,
        e.2.1 ≠ 1) := by
  have h1 := onHelloTimeout_inactive_spec.1 3 helloTimeoutState 1 3
    ({ status := Status.active, originalCost := 10, currentCost := 26,
       rttHistory := [400, 400, 400], timeoutCount := 2, lastSuccess := 0,
       lastLsaTriggerTime := 0 }) (by simp [helloTimeoutState, alookup]) (by norm_num)
  have h2 := onHelloTimeout_inactive_spec.2 3 helloTimeoutState 1 0
    ({ status := Status.active, originalCost := 10, currentCost := 26,
       rttHistory := [400, 400, 400], timeoutCount := 2, lastSuccess := 0,
       lastLsaTriggerTime := 0 }) (by simp [helloTimeoutState, alookup])
  exact ⟨by rw [h1.1]; rfl, h1.2, h2⟩

/-- Concrete state for the shutdown claim: neighbor 1's cost was raised to 26
(original 10) both in the store and in the adjacency list. -/
def stopState : LCMState :=
  { isActive := true
    outgoingLinks := [(1, { status := Status.active, originalCost := 10, currentCost := 26,
                            rttHistory := [400, 400, 400], timeoutCount := 0, lastSuccess := 0,
                            lastLsaTriggerTime := 0 })]
    pendingMeasurements := [(9, 1, 5)]
    adjacency := [(1, { linkCost := 26, originalLinkCost := 10 })]
    scheduledEvents := [1]
    rebuildRequests := 0
    routingCalcRequests := 0 }

/-- C3 counterexample: after `stop`, the adjacency slot is rolled back to the
original cost 10, but the `LinkState`'s `current_cost` field still holds 26 —
`stop` does not roll the store field back as the claim states. -/
theorem stop_keeps_store_cost_counterexample :
    (alookup 1 (stop stopState).outgoingLinks).map OutgoingLinkState.currentCost = some 26
    ∧ (alookup 1 (stop stopState).adjacency).map AdjSlot.linkCost = some 10
    ∧ (26 : ℝ) ≠ 10 := by
  refine ⟨?_, ?_, by norm_num⟩
  · simp [stop, stopState, alookup]
  · simp [stop, stopState, rollbackAdjacency, alookup, aupdate]

theorem rollbackAdjacency_lookup_none :
    ∀ (links : List (ℕ × OutgoingLinkState)) (adj : List (ℕ × AdjSlot)) (n : ℕ),
      alookup n links = none →
      alookup n (rollbackAdjacency links adj) = alookup n adj := by
  intro links
  induction links with
  | nil => intro adj n _; rfl
  | cons hd tl ih =>
    obtain ⟨m, l⟩ := hd
    intro adj n hnone
    by_cases h : n = m
    · simp [alookup, h] at hnone
    · simp only [alookup, if_neg h] at hnone
      unfold rollbackAdjacency
      dsimp only
      rw [ih _ n hnone]
      split
      · rfl
      · exact alookup_aupdate_ne _ h adj

theorem rollbackAdjacency_lookup :
    ∀ (links : List (ℕ × OutgoingLinkState)) (adj : List (ℕ × AdjSlot)) (n : ℕ)
      (ls : OutgoingLinkState),
      (links.map Prod.fst).Nodup →
      alookup n links = some ls →
      alookup n (rollbackAdjacency links adj) =
        (alookup n adj).map (fun a => { a with linkCost := ls.originalCost }) := by
  intro links
  induction links with
  | nil => intro adj n ls _ h; simp [alookup] at h
  | cons hd tl ih =>
    obtain ⟨m, l⟩ := hd
    intro adj n ls hnd hsome
    simp only [List.map_cons, List.nodup_cons] at hnd
    by_cases h : n = m
    · subst h
      rw [alookup, if_pos rfl] at hsome
      injection hsome with h'
      subst h'
      unfold rollbackAdjacency
      dsimp only
      rw [rollbackAdjacency_lookup_none tl _ n (alookup_eq_none_of_not_mem _ _ hnd.1)]
      split
      · rename_i hadj
        rw [hadj]
        rfl
      · rename_i a hadj
        rw [alookup_aupdate_self, hadj]
    · simp only [alookup, if_neg h] at hsome
      unfold rollbackAdjacency
      dsimp only
      rw [ih _ n ls hnd.2 hsome]
      split
      · rfl
      · rw [alookup_aupdate_ne _ h adj]

/-- C3 (amended): stopping an active subsystem cancels all scheduled events,
empties the pending-measurement map, writes each stored neighbor's
`original_cost` back into its adjacency-list slot, and requests exactly one
final adjacency-LSA rebuild — but it leaves the `LinkState.current_cost`
fields (the whole link store) untouched. -/
theorem stop_spec :
    ∀ s : LCMState, s.isActive = true →
      (stop s).isActive = false
      ∧ (stop s).pendingMeasurements = []
      ∧ (stop s).scheduledEvents = []
      ∧ (stop s).rebuildRequests = s.rebuildRequests + 1
      ∧ (stop s).outgoingLinks = s.outgoingLinks
      ∧ ((s.outgoingLinks.map Prod.fst).Nodup →
          ∀ n ls, alookup n s.outgoingLinks = some ls →
            alookup n (stop s).adjacency =
              (alookup n s.adjacency).map (fun a => { a with linkCost := ls.originalCost })) := by
  intro s hact
  unfold stop
  rw [hact]
  refine ⟨rfl, rfl, rfl, rfl, rfl, ?_⟩
  intro hnd n ls hls
  exact rollbackAdjacency_lookup s.outgoingLinks s.adjacency n ls hnd hls

/-- Witness for the amended C3 at the concrete state. -/
theorem stop_spec_witness :
    stopState.isActive = true
    ∧ (stop stopState).isActive = false
    ∧ (stop stopState).pendingMeasurements = []
    ∧ (stop stopState).scheduledEvents = []
    ∧ (stop stopState).rebuildRequests = 1
    ∧ (stop stopState).outgoingLinks = stopState.outgoingLinks
    ∧ (alookup 1 (stop stopState).adjacency).map AdjSlot.linkCost = some 10 := by
  have h := stop_spec stopState rfl
  have hadj := h.2.2.2.2.2 (by simp [stopState]) 1
    ({ status := Status.active, originalCost := 10, currentCost := 26,
       rttHistory := [400, 400, 400], timeoutCount := 0, lastSuccess := 0,
       lastLsaTriggerTime := 0 }) (by simp [stopState, alookup])
  refine ⟨rfl, h.1, h.2.1, h.2.2.1, by rw [h.2.2.2.1]; simp [stopState], h.2.2.2.2.1, ?_⟩
  rw [hadj]
  simp [stopState, alookup]

/-- C5: a probe response measuring below 1 ms is clamped to exactly 1 ms and
appended to the neighbor's history like a normal sample, while a response
measuring above 5000 ms is discarded: its pending entry is erased and every
other piece of state is left unchanged. -/
theorem rtt_clamp_and_reject_spec :
    (∀ (M θ : ℝ) (cal : Option CalcFn) (s : LCMState) (n seq st rt : ℕ)
        (e : ℕ × ℕ) (ls : OutgoingLinkState),
        alookup seq s.pendingMeasurements = some e →
        alookup n s.outgoingLinks = some ls →
        ls.isStable →
        rt - st < 1 →
        ls.rttHistory.length < rttHistoryCapacity →
        ∃ ls', alookup n (handleRttResponse M θ cal s n seq st rt).outgoingLinks = some ls'
          ∧ ls'.rttHistory = ls.rttHistory ++ [1])
    ∧ (∀ (M θ : ℝ) (cal : Option CalcFn) (s : LCMState) (n seq st rt : ℕ)
        (e : ℕ × ℕ),
        alookup seq s.pendingMeasurements = some e →
        5000 < rt - st →
        handleRttResponse M θ cal s n seq st rt =
          { s with pendingMeasurements := aerase seq s.pendingMeasurements }) := by
  constructor
  · intro M θ cal s n seq st rt e ls hsome hls hstable hsmall hcap
    have happ : addRttMeasurement ls.rttHistory (rt - st) = ls.rttHistory ++ [1] := by
      unfold addRttMeasurement
      dsimp only
      have hmax : max (rt - st) 1 = 1 := by omega
      rw [hmax]
      rw [if_neg (by simp only [List.length_append, List.length_cons, List.length_nil]; omega)]
    unfold handleRttResponse
    rw [hsome]
    dsimp only
    rw [if_neg (by omega)]
    rw [hls]
    dsimp only
    rw [if_pos hstable]
    set ls' : OutgoingLinkState :=
      { ls with rttHistory := addRttMeasurement ls.rttHistory (rt - st) } with hls'
    have hset : alookup n (aset n ls' s.outgoingLinks) = some ls' :=
      alookup_aset_self n ls' s.outgoingLinks (by rw [hls]; exact fun h => Option.noConfusion h)
    split
    · split
      · obtain ⟨u, hu, hupres, -⟩ :=
          updateNeighborCost_links_char cal
            { s with
                pendingMeasurements := aerase seq s.pendingMeasurements
                outgoingLinks := aset n ls' s.outgoingLinks } n _ rt
        refine ⟨u ls', ?_, ?_⟩
        · rw [hu]
          dsimp only
          rw [alookup_aupdate_self]
          rw [hset]
          rfl
        · rw [(hupres ls').1, hls']
          exact happ
      · exact ⟨ls', hset, by rw [hls']; exact happ⟩
    · exact ⟨ls', hset, by rw [hls']; exact happ⟩
  · intro M θ cal s n seq st rt e hsome hbig
    unfold handleRttResponse
    rw [hsome]
    rw [if_pos hbig]

/-- The stable link state used in the clamp/reject scenario. -/
def clampLS : OutgoingLinkState :=
  { status := Status.active
    originalCost := 10
    currentCost := 10
    rttHistory := [5, 6]
    timeoutCount := 0
    lastSuccess := 0
    lastLsaTriggerTime := 0 }

/-- Concrete state for the clamp/reject claim: neighbor 1 is stable with two
samples, probes 2 and 3 outstanding. -/
def clampState : LCMState :=
  { isActive := true
    outgoingLinks := [(1, clampLS)]
    pendingMeasurements := [(2, 1, 100), (3, 1, 200)]
    adjacency := [(1, { linkCost := 10, originalLinkCost := 10 })]
    scheduledEvents := []
    rebuildRequests := 0
    routingCalcRequests := 0 }

/-- Witness for C5: a 0 ms reading is appended as the clamped 1 ms sample, and
a 6000 ms reading only erases its pending entry. -/
theorem rtt_clamp_and_reject_spec_witness :
    (∃ ls', alookup 1 (handleRttResponse 5 (5 / 100) none clampState 1 2 100 100).outgoingLinks
        = some ls' ∧ ls'.rttHistory = [5, 6] ++ [1])
    ∧ handleRttResponse 5 (5 / 100) none clampState 1 3 200 6500 =
        { clampState with pendingMeasurements := aerase 3 clampState.pendingMeasurements } := by
  constructor
  · have h := rtt_clamp_and_reject_spec.1 5 (5 / 100) none clampState 1 2 100 100
      ((1, 100)) clampLS
      (by simp [clampState, alookup]) (by simp [clampState, alookup]) ⟨rfl, rfl⟩
      (by omega) (by simp [clampLS, rttHistoryCapacity])
    simpa [clampLS] using h
  · exact rtt_clamp_and_reject_spec.2 5 (5 / 100) none clampState 1 3 200 6500
      ((1, 200)) (by simp [clampState, alookup]) (by omega)

theorem log_five_lower : (1.55 : ℝ) ≤ Real.log 5 := by
  have h54 : (1 / 5 : ℝ) ≤ Real.log (5 / 4) := by
    have h45 : Real.log (4 / 5 : ℝ) ≤ 4 / 5 - 1 :=
      Real.log_le_sub_one_of_pos (by norm_num)
    have hinv : Real.log ((4 / 5 : ℝ)⁻¹) = -Real.log (4 / 5) := Real.log_inv _
    rw [show ((4 / 5 : ℝ)⁻¹) = (5 / 4 : ℝ) by norm_num] at hinv
    rw [hinv]
    linarith
  have hl4 : Real.log (4 : ℝ) = 2 * Real.log 2 := by
    rw [show (4 : ℝ) = 2 ^ 2 by norm_num, Real.log_pow]
    push_cast
    ring
  have hl5 : Real.log (5 : ℝ) = Real.log 4 + Real.log (5 / 4) := by
    rw [← Real.log_mul (by norm_num) (by norm_num)]
    norm_num
  have h2 := Real.log_two_gt_d9
  rw [hl5, hl4]
  linarith

theorem log_five_upper : Real.log 5 ≤ (1.64 : ℝ) := by
  have h54 : Real.log (5 / 4 : ℝ) ≤ 5 / 4 - 1 :=
    Real.log_le_sub_one_of_pos (by norm_num)
  have hl4 : Real.log (4 : ℝ) = 2 * Real.log 2 := by
    rw [show (4 : ℝ) = 2 ^ 2 by norm_num, Real.log_pow]
    push_cast
    ring
  have hl5 : Real.log (5 : ℝ) = Real.log 4 + Real.log (5 / 4) := by
    rw [← Real.log_mul (by norm_num) (by norm_num)]
    norm_num
  have h2 := Real.log_two_lt_d9
  rw [hl5, hl4]
  linarith

/-- Neighbor 1 of the cost-inflation scenario: original cost 10, every RTT
sample at 400 ms. -/
def inflationLS : OutgoingLinkState :=
  { status := Status.active
    originalCost := 10
    currentCost := 10
    rttHistory := [400, 400, 400]
    timeoutCount := 0
    lastSuccess := 0
    lastLsaTriggerTime := 0 }

/-- The link store of the cost-inflation scenario. -/
def inflationLinks : List (ℕ × OutgoingLinkState) := [(1, inflationLS)]

/-- C1: `calculateNewCost` returns the not-participating sentinel −1 for an
absent or INACTIVE neighbor, the unchanged original cost when the history is
empty, and otherwise
`round(min(original × (1 + ln(1 + avg_ms/100)), original × max_multiplier))`
for the integer-millisecond mean `avg_ms`; with original cost 10, multiplier 5
and all samples at 400 ms the result is `round(10·(1 + ln 5)) = 26`. -/
theorem calculateNewCost_spec :
    (∀ (M : ℝ) (links : List (ℕ × OutgoingLinkState)) (n : ℕ),
        alookup n links = none → calculateNewCost M links n = -1)
    ∧ (∀ (M : ℝ) (links : List (ℕ × OutgoingLinkState)) (n : ℕ) (ls : OutgoingLinkState),
        alookup n links = some ls → ls.status = Status.inactive →
        calculateNewCost M links n = -1)
    ∧ (∀ (M : ℝ) (links : List (ℕ × OutgoingLinkState)) (n : ℕ) (ls : OutgoingLinkState),
        alookup n links = some ls → ls.status ≠ Status.inactive → ls.rttHistory = [] →
        calculateNewCost M links n = ls.originalCost)
    ∧ (∀ (M : ℝ) (links : List (ℕ × OutgoingLinkState)) (n : ℕ) (ls : OutgoingLinkState),
        alookup n links = some ls → ls.status ≠ Status.inactive → ls.rttHistory ≠ [] →
        calculateNewCost M links n =
          ((round (min
              (ls.originalCost * (1 + Real.log (1 + (getAverageRtt ls.rttHistory : ℝ) / 100)))
              (ls.originalCost * M)) : ℤ) : ℝ))
    ∧ calculateNewCost 5 inflationLinks 1 = 26 := by
  refine ⟨?_, ?_, ?_, ?_, ?_⟩
  · intro M links n h
    unfold calculateNewCost
    rw [h]
  · intro M links n ls h hst
    unfold calculateNewCost
    rw [h]
    dsimp only
    rw [if_pos hst]
  · intro M links n ls h hst hemp
    unfold calculateNewCost
    rw [h]
    dsimp only
    rw [if_neg hst, if_pos hemp]
  · intro M links n ls h hst hne
    unfold calculateNewCost
    rw [h]
    dsimp only
    rw [if_neg hst, if_neg hne]
  · have havg : getAverageRtt inflationLS.rttHistory = 400 := by
      simp [getAverageRtt, inflationLS]
    have hform : calculateNewCost 5 inflationLinks 1 =
        ((round (min ((10 : ℝ) * (1 + Real.log (1 + (400 : ℝ) / 100))) ((10 : ℝ) * 5)) : ℤ) : ℝ) := by
      unfold calculateNewCost
      rw [show alookup 1 inflationLinks = some inflationLS by simp [inflationLinks, alookup]]
      dsimp only
      rw [if_neg (by simp [inflationLS]), if_neg (by simp [inflationLS])]
      rw [havg]
      rfl
    rw [hform]
    rw [show (1 + (400 : ℝ) / 100) = 5 by norm_num]
    have hmin : min ((10 : ℝ) * (1 + Real.log 5)) ((10 : ℝ) * 5) =
        (10 : ℝ) * (1 + Real.log 5) := by
      apply min_eq_left
      have := log_five_upper
      nlinarith
    rw [hmin]
    have hround : round ((10 : ℝ) * (1 + Real.log 5)) = 26 := by
      have hlb := log_five_lower
      have hub := log_five_upper
      rw [round_eq]
      have : ⌊(10 : ℝ) * (1 + Real.log 5) + 1 / 2⌋ = (26 : ℤ) := by
        rw [Int.floor_eq_iff]
        constructor
        · push_cast
          nlinarith
        · push_cast
          nlinarith
      exact this
    rw [hround]
    norm_num

/-- Witness for C1's hypothesis-bearing conjuncts at concrete inputs. -/
theorem calculateNewCost_spec_witness :
    calculateNewCost 5 [] 0 = -1
    ∧ calculateNewCost 5 [(2, { inflationLS with status := Status.inactive })] 2 = -1
    ∧ calculateNewCost 5 [(3, { inflationLS with rttHistory := [] })] 3 = 10 := by
  refine ⟨?_, ?_, ?_⟩
  · exact calculateNewCost_spec.1 5 [] 0 rfl
  · exact calculateNewCost_spec.2.1 5 _ 2 ({ inflationLS with status := Status.inactive })
      (by simp [alookup]) rfl
  · have h := calculateNewCost_spec.2.2.1 5 [(3, { inflationLS with rttHistory := [] })] 3
      ({ inflationLS with rttHistory := [] }) (by simp [alookup]) (by simp [inflationLS]) rfl
    rw [h]
    simp [inflationLS]

theorem round_intCast_bounds {x : ℝ} {a b : ℤ} (h1 : (a : ℝ) ≤ x) (h2 : x ≤ (b : ℝ)) :
    (a : ℝ) ≤ ((round x : ℤ) : ℝ) ∧ ((round x : ℤ) : ℝ) ≤ (b : ℝ) := by
  have ha : a ≤ round x := by
    rw [round_eq, Int.le_floor]
    linarith
  have hb : round x ≤ b := by
    rw [round_eq]
    have : x + 1 / 2 < (b : ℝ) + 1 := by linarith
    have hlt : ⌊x + 1 / 2⌋ < b + 1 := by
      rw [Int.floor_lt]
      push_cast
      linarith
    omega
  exact ⟨by exact_mod_cast ha, by exact_mod_cast hb⟩

/-- C9: every preview factor lies in `[1, 2]` whether its input is present or
absent, the preview cost is the rounded weighted composite and hence lies in
`[original_cost, 2·original_cost]`, and the concrete scenario (utilization
0.65, loss 0.02, spectrum −45 dBm, no RTT data, original cost 12) previews
to 15. -/
theorem multiDimensionalPreview_spec :
    (∀ avg : Option ℝ, 1 ≤ rttFactorOf avg ∧ rttFactorOf avg ≤ 2)
    ∧ (∀ u : Option ℝ, 1 ≤ bwFactorOf u ∧ bwFactorOf u ≤ 2)
    ∧ (∀ l : Option ℝ, 1 ≤ lossFactorOf l ∧ lossFactorOf l ≤ 2)
    ∧ (∀ sp : Option ℝ, 1 ≤ spectrumFactorOf sp ∧ spectrumFactorOf sp ≤ 2)
    ∧ (∀ (orig : ℕ) (avg u l sp : Option ℝ),
        (orig : ℝ) ≤ calculateMultiDimensionalCostPreview (orig : ℝ) avg u l sp
        ∧ calculateMultiDimensionalCostPreview (orig : ℝ) avg u l sp ≤ 2 * (orig : ℝ))
    ∧ calculateMultiDimensionalCostPreview 12 none (some 0.65) (some 0.02) (some (-45)) = 15 := by
  have hrtt : ∀ avg : Option ℝ, 1 ≤ rttFactorOf avg ∧ rttFactorOf avg ≤ 2 := by
    intro avg
    cases avg with
    | none => unfold rttFactorOf; norm_num
    | some a =>
      unfold rttFactorOf
      dsimp only
      split_ifs with h1 h2
      · norm_num
      · norm_num
      · push_neg at h1 h2
        constructor <;> [linarith; linarith]
  have hbw : ∀ u : Option ℝ, 1 ≤ bwFactorOf u ∧ bwFactorOf u ≤ 2 := by
    intro u
    cases u with
    | none => unfold bwFactorOf; norm_num
    | some a =>
      unfold bwFactorOf
      dsimp only
      split_ifs with h1 h2
      · norm_num
      · norm_num
      · push_neg at h1 h2
        constructor <;> linarith
  have hloss : ∀ l : Option ℝ, 1 ≤ lossFactorOf l ∧ lossFactorOf l ≤ 2 := by
    intro l
    cases l with
    | none => unfold lossFactorOf; norm_num
    | some a =>
      unfold lossFactorOf
      dsimp only
      split_ifs with h1 h2
      · norm_num
      · norm_num
      · push_neg at h1 h2
        constructor <;> linarith
  have hspec : ∀ sp : Option ℝ, 1 ≤ spectrumFactorOf sp ∧ spectrumFactorOf sp ≤ 2 := by
    intro sp
    cases sp with
    | none => unfold spectrumFactorOf; norm_num
    | some a =>
      unfold spectrumFactorOf
      dsimp only
      split_ifs with h1 h2
      · norm_num
      · norm_num
      · push_neg at h1 h2
        constructor <;> linarith
  refine ⟨hrtt, hbw, hloss, hspec, ?_, ?_⟩
  · intro orig avg u l sp
    obtain ⟨r1, r2⟩ := hrtt avg
    obtain ⟨b1, b2⟩ := hbw u
    obtain ⟨l1, l2⟩ := hloss l
    obtain ⟨s1, s2⟩ := hspec sp
    unfold calculateMultiDimensionalCostPreview
    dsimp only
    have hcomp1 : (1 : ℝ) ≤ 0.4 * rttFactorOf avg + 0.3 * bwFactorOf u
        + 0.2 * lossFactorOf l + 0.1 * spectrumFactorOf sp := by linarith
    have hcomp2 : 0.4 * rttFactorOf avg + 0.3 * bwFactorOf u
        + 0.2 * lossFactorOf l + 0.1 * spectrumFactorOf sp ≤ 2 := by linarith
    have horig : (0 : ℝ) ≤ (orig : ℝ) := Nat.cast_nonneg orig
    have h1 : ((orig : ℤ) : ℝ) ≤ (orig : ℝ) * (0.4 * rttFactorOf avg + 0.3 * bwFactorOf u
        + 0.2 * lossFactorOf l + 0.1 * spectrumFactorOf sp) := by
      push_cast
      nlinarith
    have h2 : (orig : ℝ) * (0.4 * rttFactorOf avg + 0.3 * bwFactorOf u
        + 0.2 * lossFactorOf l + 0.1 * spectrumFactorOf sp) ≤ (((2 * orig : ℕ) : ℤ) : ℝ) := by
      push_cast
      nlinarith
    obtain ⟨hl, hr⟩ := round_intCast_bounds h1 h2
    constructor
    · exact le_trans (by push_cast; exact le_refl _) hl
    · refine le_trans hr ?_
      push_cast
      linarith
  · unfold calculateMultiDimensionalCostPreview rttFactorOf bwFactorOf lossFactorOf
      spectrumFactorOf
    dsimp only
    rw [if_neg (by norm_num), if_neg (by norm_num), if_neg (by norm_num),
      if_neg (by norm_num), if_neg (by norm_num), if_neg (by norm_num)]
    rw [show (12 : ℝ) * (0.4 * (1 + 20 / 200) + 0.3 * (1 + 0.65)
        + 0.2 * (1 + 0.02 * 2) + 0.1 * (1 + (-30 - (-45 : ℝ)) / 50)) = 15.276 by norm_num]
    rw [show round (15.276 : ℝ) = 15 by
      rw [round_eq]
      rw [show (15.276 : ℝ) + 1 / 2 = 15.776 by norm_num]
      rw [Int.floor_eq_iff]
      norm_num]
    norm_num

theorem resolveFinalCost_none (s : LCMState) (n : ℕ) (c : ℝ) :
    resolveFinalCost none s n c = c := rfl

theorem resolveFinalCost_of_throw (f : CalcFn) (s : LCMState) (n : ℕ) (c : ℝ)
    (hthrow : ∀ m, getLinkMetrics s n = some m → f n c m = none) :
    resolveFinalCost (some f) s n c = c := by
  unfold resolveFinalCost
  cases hm : getLinkMetrics s n with
  | none => rfl
  | some m =>
    dsimp only
    rw [hthrow m hm]

/-- The sigmoid output of the linear model is strictly between 0 and 1. -/
theorem predict_mem_Ioo (m : LinearRegressionModel) (features : List ℝ) :
    0 < m.predict features ∧ m.predict features < 1 := by
  unfold LinearRegressionModel.predict
  set r := m.bias + (List.zipWith (· * ·) m.weights features).sum with hr
  have hexp : 0 < Real.exp (-r) := Real.exp_pos _
  constructor
  · positivity
  · rw [div_lt_one (by linarith)]
    linarith

theorem predictWithFixedWeights_mem_Icc (features : List ℝ) :
    0 ≤ predictWithFixedWeights features ∧ predictWithFixedWeights features ≤ 1 := by
  unfold predictWithFixedWeights
  constructor
  · exact le_max_left _ _
  · exact max_le (by norm_num) (min_le_right _ _)

/-- C6: a calculator failure is absorbed by the engine — `updateNeighborCost`
behaves exactly as with no calculator registered, so the final cost is the
RTT-based candidate and the update proceeds; and the ML calculator itself is a
total function returning `originalCost × (1 + ŷ)` with `ŷ ∈ [0, 1]`, hence it
never produces a non-finite or negative-factor cost. -/
theorem calculator_failure_fallback_spec :
    (∀ (f : CalcFn) (s : LCMState) (n : ℕ) (c : ℝ) (now : ℕ),
        (∀ m, getLinkMetrics s n = some m → f n c m = none) →
        updateNeighborCost (some f) s n c now = updateNeighborCost none s n c now)
    ∧ (∀ (ml : MLState) (n slot : ℕ) (metrics : LinkMetrics),
        ∃ y, (predictLinkQuality ml n slot metrics).2 = metrics.originalCost * (1 + y)
          ∧ 0 ≤ y ∧ y ≤ 1) := by
  constructor
  · intro f s n c now hthrow
    unfold updateNeighborCost
    rw [resolveFinalCost_of_throw f s n c hthrow, resolveFinalCost_none]
  · intro ml n slot metrics
    unfold predictLinkQuality
    dsimp only
    refine ⟨_, rfl, ?_⟩
    split_ifs
    · have h := predict_mem_Ioo ml.model (extractCoreFeatures ml n slot)
      exact ⟨le_of_lt h.1, le_of_lt h.2⟩
    · exact predictWithFixedWeights_mem_Icc _

/-- A calculator callback that always throws. -/
def throwingCalculator : CalcFn := fun _ _ _ => none

/-- Witness for C6: with the always-throwing calculator registered, the
engine's update at a concrete state coincides with the calculator-free
update. -/
theorem calculator_failure_fallback_spec_witness :
    updateNeighborCost (some throwingCalculator) stopState 1 26 0 =
      updateNeighborCost none stopState 1 26 0
    ∧ (∃ y, (predictLinkQuality (MLState.mk LinearRegressionModel.init (1 / 100) (1 / 5)
          false 0 0 0 0 [] []) 1 0
          (LinkMetrics.mk 1 10 10 0 Status.active [] none)).2 = 10 * (1 + y) ∧ 0 ≤ y ∧ y ≤ 1) := by
  constructor
  · exact calculator_failure_fallback_spec.1 throwingCalculator stopState 1 26 0
      (fun m _ => rfl)
  · exact calculator_failure_fallback_spec.2 (MLState.mk LinearRegressionModel.init (1 / 100)
      (1 / 5) false 0 0 0 0 [] []) 1 0 (LinkMetrics.mk 1 10 10 0 Status.active [] none)

/-- The freshly constructed ML calculator state: learning rate 0.01,
adaptation threshold 0.2, model not yet ready, constructed at time `now`. -/
noncomputable def MLState.fresh (now : ℕ) : MLState :=
  { model := LinearRegressionModel.init
    learningRate := 1 / 100
    adaptationThreshold := 1 / 5
    isModelReady := false
    lastModelUpdate := now
    predictionCount := 0
    modelUpdateCount := 0
    averagePredictionError := 0
    rttHistory := []
    timePatterns := [] }

/-- C7: once the model is ready the prediction is the logistic function of the
bias plus weighted feature sum, hence in `(0, 1)`; before any feedback the
calculator is not ready and uses the fixed 0.4/0.3/0.2/0.1 combination of the
first four features clamped to `[0, 1]`; in both cases the returned cost is
`original_cost × (1 + ŷ)`. -/
theorem ml_prediction_spec :
    (∀ (m : LinearRegressionModel) (features : List ℝ),
        m.predict features =
          1 / (1 + Real.exp (-(m.bias + (List.zipWith (· * ·) m.weights features).sum)))
        ∧ 0 < m.predict features ∧ m.predict features < 1)
    ∧ (∀ a b c d e : ℝ,
        predictWithFixedWeights [a, b, c, d, e] =
          max 0 (min (0.4 * a + (0.3 * b + (0.2 * c + 0.1 * d))) 1))
    ∧ (∀ now : ℕ, (MLState.fresh now).isModelReady = false)
    ∧ (∀ (ml : MLState) (n slot : ℕ) (metrics : LinkMetrics),
        ml.isModelReady = true →
        (predictLinkQuality ml n slot metrics).2 =
          metrics.originalCost * (1 + ml.model.predict (extractCoreFeatures ml n slot)))
    ∧ (∀ (ml : MLState) (n slot : ℕ) (metrics : LinkMetrics),
        ml.isModelReady = false →
        (predictLinkQuality ml n slot metrics).2 =
          metrics.originalCost * (1 + predictWithFixedWeights (extractCoreFeatures ml n slot))) := by
  refine ⟨?_, ?_, ?_, ?_, ?_⟩
  · intro m features
    exact ⟨rfl, predict_mem_Ioo m features⟩
  · intro a b c d e
    unfold predictWithFixedWeights fixedWeights
    simp [List.zipWith]
  · intro now
    rfl
  · intro ml n slot metrics hready
    unfold predictLinkQuality
    rw [hready]
    rfl
  · intro ml n slot metrics hnot
    unfold predictLinkQuality
    rw [hnot]
    rfl

/-- Witness for C7 at concrete calculator states (ready and fresh). -/
theorem ml_prediction_spec_witness :
    (MLState.fresh 0).isModelReady = false
    ∧ (predictLinkQuality ({ MLState.fresh 0 with isModelReady := true }) 1 0
          (LinkMetrics.mk 1 12 12 0 Status.active [] none)).2 =
        (12 : ℝ) * (1 + ({ MLState.fresh 0 with isModelReady := true }).model.predict
          (extractCoreFeatures ({ MLState.fresh 0 with isModelReady := true }) 1 0))
    ∧ (predictLinkQuality (MLState.fresh 0) 1 0
          (LinkMetrics.mk 1 12 12 0 Status.active [] none)).2 =
        (12 : ℝ) * (1 + predictWithFixedWeights (extractCoreFeatures (MLState.fresh 0) 1 0)) := by
  refine ⟨ml_prediction_spec.2.2.1 0, ?_, ?_⟩
  · exact ml_prediction_spec.2.2.2.1 ({ MLState.fresh 0 with isModelReady := true }) 1 0
      (LinkMetrics.mk 1 12 12 0 Status.active [] none) rfl
  · exact ml_prediction_spec.2.2.2.2 (MLState.fresh 0) 1 0
      (LinkMetrics.mk 1 12 12 0 Status.active [] none) rfl

theorem fresh_predict_zero :
    (MLState.fresh 0).model.predict [0, 0, 0, 0, 0] = 1 / 2 := by
  unfold LinearRegressionModel.predict MLState.fresh LinearRegressionModel.init
  simp [List.zipWith]
  norm_num [Real.exp_zero]

/-- C8 counterexample: with prediction error 0 (below the 0.2 threshold) and
exactly 30 s elapsed since the last update, the code does not update the model
(`timeSinceUpdate > MIN_UPDATE_INTERVAL` is strict), while the claim's
"at least 30 s" would trigger one. -/
theorem ml_update_trigger_counterexample :
    (MLState.fresh 0).adaptationThreshold = 1 / 5
    ∧ |(1 / 2 : ℝ) - (MLState.fresh 0).model.predict [0, 0, 0, 0, 0]| = 0
    ∧ minUpdateIntervalMs ≤ 30000 - (MLState.fresh 0).lastModelUpdate
    ∧ (updateModelWithFeedback (MLState.fresh 0) [0, 0, 0, 0, 0] (1 / 2)
        30000).modelUpdateCount = 0
    ∧ (updateModelWithFeedback (MLState.fresh 0) [0, 0, 0, 0, 0] (1 / 2)
        30000).isModelReady = false := by
  have herr : |(1 / 2 : ℝ) - (MLState.fresh 0).model.predict [0, 0, 0, 0, 0]| = 0 := by
    rw [fresh_predict_zero]
    norm_num
  have hml : updateModelWithFeedback (MLState.fresh 0) [0, 0, 0, 0, 0] (1 / 2) 30000 =
      { MLState.fresh 0 with
          averagePredictionError :=
            |(1 / 2 : ℝ) - (MLState.fresh 0).model.predict [0, 0, 0, 0, 0]| } := by
    unfold updateModelWithFeedback
    rw [if_neg (show ¬ ([(0 : ℝ), 0, 0, 0, 0].length ≠ featureCount) by simp [featureCount])]
    dsimp only
    rw [if_neg (show ¬ 0 < (MLState.fresh 0).predictionCount by simp [MLState.fresh])]
    split
    · rename_i hc
      exfalso
      unfold shouldTriggerModelUpdate at hc
      rw [herr, Bool.or_eq_true, decide_eq_true_eq, decide_eq_true_eq] at hc
      rcases hc with hc | hc
      · norm_num [MLState.fresh] at hc
      · norm_num [MLState.fresh, minUpdateIntervalMs] at hc
    · rfl
  refine ⟨rfl, herr, ?_, ?_, ?_⟩
  · show minUpdateIntervalMs ≤ 30000 - 0
    simp [minUpdateIntervalMs]
  · rw [hml]
    rfl
  · rw [hml]
    rfl

theorem adaptLearningRate_avg (ml : MLState) :
    (adaptLearningRate ml).averagePredictionError = ml.averagePredictionError := by
  unfold adaptLearningRate
  split_ifs <;> rfl

/-- C8 (amended): a model update is triggered exactly when `|ε|` strictly
exceeds the adaptation threshold or strictly more than 30 s have elapsed since
the last update; the gradient step is `b ← b + η·ε`, `wᵢ ← wᵢ + η·ε·xᵢ`; the
tracked average of `|ε|` is the arithmetic running average
`(avg·(n−1) + |ε|)/n` over the prediction counter (not an EMA); and the
learning rate adapts by ×1.1 capped at 0.05 above average error 0.3 and by
×0.9 floored at 0.001 below 0.1. -/
theorem ml_feedback_update_spec :
    (∀ (ml : MLState) (e : ℝ) (now : ℕ),
        shouldTriggerModelUpdate ml e now = true ↔
          (ml.adaptationThreshold < e ∨ minUpdateIntervalMs < now - ml.lastModelUpdate))
    ∧ (∀ (m : LinearRegressionModel) (features : List ℝ) (target η : ℝ),
        features.length = m.weights.length →
        (m.updateOnline features target η).bias =
            m.bias + η * (target - m.predict features)
          ∧ (m.updateOnline features target η).weights =
              List.zipWith (fun w x => w + η * (target - m.predict features) * x)
                m.weights features)
    ∧ (∀ (ml : MLState) (features : List ℝ) (actual : ℝ) (now : ℕ),
        features.length = featureCount → 0 < ml.predictionCount →
        (updateModelWithFeedback ml features actual now).averagePredictionError =
          (ml.averagePredictionError * ((ml.predictionCount - 1 : ℕ) : ℝ)
            + |actual - ml.model.predict features|) / (ml.predictionCount : ℝ))
    ∧ (∀ ml : MLState,
        (3 / 10 < ml.averagePredictionError →
          (adaptLearningRate ml).learningRate = min (5 / 100) (ml.learningRate * (11 / 10)))
        ∧ (ml.averagePredictionError < 1 / 10 →
          (adaptLearningRate ml).learningRate = max (1 / 1000) (ml.learningRate * (9 / 10)))) := by
  refine ⟨?_, ?_, ?_, ?_⟩
  · intro ml e now
    unfold shouldTriggerModelUpdate
    simp only [Bool.or_eq_true, decide_eq_true_eq]
  · intro m features target η hlen
    unfold LinearRegressionModel.updateOnline
    rw [if_neg (by rw [hlen]; exact fun h => h rfl)]
    exact ⟨rfl, rfl⟩
  · intro ml features actual now hlen hpos
    unfold updateModelWithFeedback
    rw [if_neg (by rw [hlen]; exact fun h => h rfl)]
    dsimp only
    rw [if_pos hpos]
    split
    · rw [adaptLearningRate_avg]
    · rfl
  · intro ml
    constructor
    · intro h
      unfold adaptLearningRate
      rw [if_pos h]
    · intro h
      unfold adaptLearningRate
      rw [if_neg (by linarith), if_pos h]

/-- Witness for the amended C8 at concrete inputs: a gradient step on the
initial model, the running-average formula at prediction count 2, and both
learning-rate branches. -/
theorem ml_feedback_update_spec_witness :
    ((LinearRegressionModel.init.updateOnline [1, 0, 0, 0, 0] 1 (1 / 100)).bias =
        0 + 1 / 100 * (1 - LinearRegressionModel.init.predict [1, 0, 0, 0, 0]))
    ∧ (updateModelWithFeedback ({ MLState.fresh 0 with predictionCount := 2, averagePredictionError := 1 }) [0, 0, 0, 0, 0] (1 / 2) 0).averagePredictionError =
        ((1 : ℝ) * ((2 - 1 : ℕ) : ℝ)
          + |(1 / 2 : ℝ) - (MLState.fresh 0).model.predict [0, 0, 0, 0, 0]|) / ((2 : ℕ) : ℝ)
    ∧ (adaptLearningRate ({ MLState.fresh 0 with averagePredictionError := 1 / 2 })).learningRate
        = min (5 / 100) ((1 / 100 : ℝ) * (11 / 10))
    ∧ (adaptLearningRate ({ MLState.fresh 0 with averagePredictionError := 0 })).learningRate
        = max (1 / 1000) ((1 / 100 : ℝ) * (9 / 10)) := by
  refine ⟨?_, ?_, ?_, ?_⟩
  · have h := (ml_feedback_update_spec.2.1 LinearRegressionModel.init [1, 0, 0, 0, 0] 1 (1 / 100)
      (by simp [LinearRegressionModel.init])).1
    rw [h]
    rfl
  · have h := ml_feedback_update_spec.2.2.1 ({ MLState.fresh 0 with predictionCount := 2, averagePredictionError := 1 }) [0, 0, 0, 0, 0] (1 / 2) 0 (by simp [featureCount]) (by norm_num)
    rw [h]
  · have h := (ml_feedback_update_spec.2.2.2 ({ MLState.fresh 0 with averagePredictionError := 1 / 2 })).1 (by norm_num)
    rw [h]
    rfl
  · have h := (ml_feedback_update_spec.2.2.2 ({ MLState.fresh 0 with averagePredictionError := 0 })).2 (by norm_num)
    rw [h]
    rfl

theorem updateNeighborCost_last_mono (cal : Option CalcFn) (s : LCMState) (m : ℕ) (c : ℝ)
    (now : ℕ) (n : ℕ) (ls' : OutgoingLinkState)
    (h' : alookup n (updateNeighborCost cal s m c now).1.outgoingLinks = some ls') :
    ∃ ls0, alookup n s.outgoingLinks = some ls0
      ∧ ls0.lastLsaTriggerTime ≤ ls'.lastLsaTriggerTime := by
  obtain ⟨u, hu, -, hlast⟩ := updateNeighborCost_links_char cal s m c now
  rw [hu] at h'
  by_cases hnm : n = m
  · subst hnm
    rw [alookup_aupdate_self] at h'
    cases h0 : alookup n s.outgoingLinks with
    | none => rw [h0] at h'; cases h'
    | some ls0 =>
      rw [h0] at h'
      injection h' with h''
      subst h''
      exact ⟨ls0, rfl, hlast ls0 h0⟩
  · rw [alookup_aupdate_ne _ hnm] at h'
    exact ⟨ls', h', le_refl _⟩

theorem runUpdates_chain (cal : Option CalcFn) :
    ∀ (evs : List (ℕ × ℕ × ℝ)) (s : LCMState) (n b : ℕ),
      (∀ ls, alookup n s.outgoingLinks = some ls → b ≤ ls.lastLsaTriggerTime) →
      List.Chain (fun a c => a + minLsaIntervalMs ≤ c) b
        (((runUpdates cal s evs).filter (fun p => p.1 == n)).map Prod.snd) := by
  intro evs
  induction evs with
  | nil =>
    intro s n b hb
    unfold runUpdates
    exact List.Chain.nil
  | cons ev rest ih =>
    obtain ⟨now, m, c⟩ := ev
    intro s n b hb
    unfold runUpdates
    dsimp only
    split
    · rename_i hr
      by_cases hmn : m = n
      · subst hmn
        obtain ⟨ls, hls, -, hfar, -, hres⟩ := updateNeighborCost_rebuild_spec cal s m c now hr
        rw [show List.filter (fun p => p.1 == m)
              ((m, now) :: runUpdates cal (updateNeighborCost cal s m c now).1 rest) =
            (m, now) :: List.filter (fun p => p.1 == m)
              (runUpdates cal (updateNeighborCost cal s m c now).1 rest) from by simp]
        rw [List.map_cons]
        rw [List.chain_cons]
        constructor
        · have hble := hb ls hls
          simp only [minLsaIntervalMs] at hfar ⊢
          omega
        · refine ih _ m now ?_
          intro ls' h'
          rw [hres] at h'
          cases h'
          exact le_refl _
      · rw [show List.filter (fun p => p.1 == n)
              ((m, now) :: runUpdates cal (updateNeighborCost cal s m c now).1 rest) =
            List.filter (fun p => p.1 == n)
              (runUpdates cal (updateNeighborCost cal s m c now).1 rest) from by simp [hmn]]
        refine ih _ n b ?_
        intro ls' h'
        obtain ⟨ls0, h0, hmono⟩ := updateNeighborCost_last_mono cal s m c now n ls' h'
        exact le_trans (hb ls0 h0) hmono
    · refine ih _ n b ?_
      intro ls' h'
      obtain ⟨ls0, h0, hmono⟩ := updateNeighborCost_last_mono cal s m c now n ls' h'
      exact le_trans (hb ls0 h0) hmono

/-- C4: when less than 10 s have passed since a neighbor's last LSA trigger,
`updateNeighborCost` updates the stored and adjacency costs silently — no
rebuild, no trigger-time advance; a rebuild is only ever requested with at
least 10 s elapsed and a zero timeout count; and along any run of the engine
the rebuild requests for one neighbor are spaced at least 10 s apart. -/
theorem rebuild_rate_limit_spec :
    (∀ (cal : Option CalcFn) (s : LCMState) (n : ℕ) (c : ℝ) (now : ℕ)
        (slot : AdjSlot) (ls : OutgoingLinkState),
        alookup n s.adjacency = some slot →
        alookup n s.outgoingLinks = some ls →
        ls.status ≠ Status.inactive →
        ¬ (|resolveFinalCost cal s n c - slot.linkCost| / slot.linkCost < 5 / 100) →
        now - ls.lastLsaTriggerTime < minLsaIntervalMs →
        updateNeighborCost cal s n c now =
          ({ s with
              adjacency :=
                aupdate n (fun a => { a with linkCost := resolveFinalCost cal s n c }) s.adjacency
              outgoingLinks :=
                aupdate n (fun l => { l with currentCost := resolveFinalCost cal s n c })
                  s.outgoingLinks },
           false))
    ∧ (∀ (cal : Option CalcFn) (s : LCMState) (n : ℕ) (c : ℝ) (now : ℕ),
        (updateNeighborCost cal s n c now).2 = true →
        ∃ ls, alookup n s.outgoingLinks = some ls
          ∧ minLsaIntervalMs ≤ now - ls.lastLsaTriggerTime
          ∧ ls.timeoutCount = 0)
    ∧ (∀ (cal : Option CalcFn) (s : LCMState) (evs : List (ℕ × ℕ × ℝ)) (n : ℕ),
        List.Chain' (fun a c => a + minLsaIntervalMs ≤ c)
          (((runUpdates cal s evs).filter (fun p => p.1 == n)).map Prod.snd)) := by
  refine ⟨?_, ?_, ?_⟩
  · intro cal s n c now slot ls h1 h2 h3 h4 h5
    unfold updateNeighborCost
    rw [h1]
    dsimp only
    rw [h2]
    dsimp only
    rw [if_neg h3]
    rw [if_neg h4, if_pos h5]
  · intro cal s n c now hr
    obtain ⟨ls, hls, -, hfar, htc, -⟩ := updateNeighborCost_rebuild_spec cal s n c now hr
    exact ⟨ls, hls, hfar, htc⟩
  · intro cal s evs n
    cases hl : ((runUpdates cal s evs).filter (fun p => p.1 == n)).map Prod.snd with
    | nil => exact List.chain'_nil
    | cons a t =>
      have h := runUpdates_chain cal evs s n 0 (fun ls _ => Nat.zero_le _)
      rw [hl] at h
      exact (List.chain_cons.mp h).2

/-- Link state of the rate-limit scenario: last LSA trigger at 5000 ms. -/
def rateLS : OutgoingLinkState :=
  { status := Status.active
    originalCost := 10
    currentCost := 10
    rttHistory := [400, 400, 400]
    timeoutCount := 0
    lastSuccess := 0
    lastLsaTriggerTime := 5000 }

/-- Concrete state for the rate-limit claim. -/
def rateState : LCMState :=
  { isActive := true
    outgoingLinks := [(1, rateLS)]
    pendingMeasurements := []
    adjacency := [(1, { linkCost := 10, originalLinkCost := 10 })]
    scheduledEvents := []
    rebuildRequests := 0
    routingCalcRequests := 0 }

/-- Witness for C4: a cost-26 update at 6000 ms (1 s after the last trigger)
updates the costs silently, while the same update at 20000 ms requests a
rebuild, so the 10 s precondition proved in the claim holds there. -/
theorem rebuild_rate_limit_spec_witness :
    updateNeighborCost none rateState 1 26 6000 =
      ({ rateState with
          adjacency :=
            aupdate 1 (fun a => { a with linkCost := resolveFinalCost none rateState 1 26 })
              rateState.adjacency
          outgoingLinks :=
            aupdate 1 (fun l => { l with currentCost := resolveFinalCost none rateState 1 26 })
              rateState.outgoingLinks },
       false)
    ∧ (updateNeighborCost none rateState 1 26 20000).2 = true
    ∧ (∃ ls, alookup 1 rateState.outgoingLinks = some ls
        ∧ minLsaIntervalMs ≤ 20000 - ls.lastLsaTriggerTime
        ∧ ls.timeoutCount = 0) := by
  have htrue : (updateNeighborCost none rateState 1 26 20000).2 = true := by
    unfold updateNeighborCost
    rw [show alookup 1 rateState.adjacency =
        some ({ linkCost := 10, originalLinkCost := 10 }) by simp [rateState, alookup]]
    dsimp only
    rw [show alookup 1 rateState.outgoingLinks = some rateLS by simp [rateState, alookup]]
    dsimp only
    rw [if_neg (by simp [rateLS])]
    rw [if_neg (by rw [resolveFinalCost_none]; norm_num)]
    rw [if_neg (by norm_num [rateLS, minLsaIntervalMs])]
    rw [if_pos (by simp [rateLS])]
  refine ⟨?_, htrue, ?_⟩
  · exact rebuild_rate_limit_spec.1 none rateState 1 26 6000
      ({ linkCost := 10, originalLinkCost := 10 }) rateLS
      (by simp [rateState, alookup]) (by simp [rateState, alookup])
      (by simp [rateLS]) (by rw [resolveFinalCost_none]; norm_num)
      (by norm_num [rateLS, minLsaIntervalMs])
  · exact rebuild_rate_limit_spec.2.1 none rateState 1 26 20000 htrue

end NlsrLCM
